import Mathlib

set_option maxRecDepth 100000

/-!
Shallow embedding of the real-time WebSocket hub of GotalkApp/api-gotalk.

Embedded components (Go source file → Lean definitions):
  * internal/ws (Hub: addClient, removeClient, SendToUser, SendToUsers,
    sendToLocalUser, broadcastToLocal, IsUserOnline, publishToRedis,
    subscribeRedis, TargetedEvent) — the connection registry and bus bridge.
  * internal/ws/client.go (Client, ReadPump, WritePump, the timing
    constants) — the per-connection pump.
  * internal/handler/ws_handler.go (handleNewMessage, handleCallSignaling)
    — the event dispatcher.

Modelling conventions:
  * JSON values are modelled by `JVal`.  JSON arrays are omitted: no wire
    shape produced or consumed by the hub uses a top-level or field-level
    array, and an array in a position where a struct is expected is a
    decode error, which `Frame.malformed` already represents.
  * `uuid.UUID` is modelled by `Nat`; `uuid.Nil` is `0`.  The canonical
    textual JSON form of a UUID is abstracted to the number literal
    `JVal.jnum u`: the claims depend only on presence/absence of a UUID
    field and on whether it equals `uuid.Nil`, never on its text.
    (`omitempty` on `uuid.UUID` never omits the field: in encoding/json a
    16-byte array is never "empty", so `target_user_id` is always emitted.)
  * Go channels: a client's buffered `send` channel is a `ChanState`
    (buffered contents plus a closed flag).  `close` of a closed channel
    and `send` on a closed channel are Go runtime panics, modelled by
    `Except GoPanic`.  A `select` with a `default` branch takes the
    default only when the buffer is full; a send on a closed channel still
    panics.
  * External collaborators (chat service persistence, membership lookup,
    Redis transport) are out of scope per the spec; they enter as function
    parameters / as the decoded bus payload.
-/

namespace GotalkWS

/-- JSON values (arrays omitted, see module header). -/
inductive JVal where
  | jnull : JVal
  | jbool : Bool → JVal
  | jnum  : Nat → JVal
  | jstr  : String → JVal
  | jobj  : List (String × JVal) → JVal
deriving Repr

/-- User / conversation identity: `uuid.UUID` abstracted to `Nat`. -/
abbrev UUID := Nat

/-- `uuid.Nil`, the zero UUID. -/
def uuidNil : UUID := 0

/-- First binding of a key in a JSON object (the encoders here never emit
duplicate keys). -/
def lookupField : List (String × JVal) → String → Option JVal
  | [], _ => none
  | (k, v) :: rest, key => if k = key then some v else lookupField rest key

/-- `model.WSEvent`: `{Type string; Payload interface{}}` with json tags
`type` / `payload`. -/
structure WSEvent where
  type : String
  payload : JVal
deriving Repr

/-- WebSocket event type constants from internal/model. -/
def WSEventNewMessage : String := "new_message"

def WSEventTyping : String := "typing"

def WSEventStopTyping : String := "stop_typing"

def WSEventOnline : String := "online"

def WSEventOffline : String := "offline"

def WSEventMessageRead : String := "message_read"

def WSEventCallOffer : String := "call_offer"

def WSEventCallAnswer : String := "call_answer"

def WSEventCallICE : String := "call_ice_candidate"

def WSEventCallHangup : String := "call_hangup"

/-- `json.Marshal` of a `model.WSEvent`. -/
def WSEvent.toJson (e : WSEvent) : JVal :=
  .jobj [("type", .jstr e.type), ("payload", e.payload)]

/-- `json.Unmarshal` into a `model.WSEvent` value: `null` leaves the zero
value; a JSON object reads `type` (must be a string when present) and
`payload` (any JSON value, absent ⇒ nil interface); any other top-level
value is a decode error. -/
def unmarshalWSEvent : JVal → Option WSEvent
  | .jnull => some ⟨"", .jnull⟩
  | .jobj fs =>
      let t? : Option String :=
        match lookupField fs "type" with
        | none => some ""
        | some (.jstr s) => some s
        | some .jnull => some ""
        | some _ => none
      match t? with
      | some t => some ⟨t, (lookupField fs "payload").getD .jnull⟩
      | none => none
  | _ => none

/-- `json.Unmarshal` into a `*model.WSEvent` field: `null` yields a nil
pointer; otherwise a fresh `WSEvent` is allocated and unmarshalled. -/
def unmarshalWSEventPtr : JVal → Option (Option WSEvent)
  | .jnull => some none
  | v => (unmarshalWSEvent v).map some

/-- Unmarshal of a `uuid.UUID` field (under the `jnum` abstraction):
`null` leaves the zero value `uuid.Nil`; anything but a UUID is an error. -/
def unmarshalUUID : JVal → Option UUID
  | .jnull => some uuidNil
  | .jnum n => some n
  | _ => none

/-- `ws.TargetedEvent`: `{TargetUserID uuid.UUID `target_user_id,omitempty`;
Event *model.WSEvent `event`}` (the nil pointer is `none`). -/
structure TargetedEvent where
  targetUserID : UUID
  event : Option WSEvent
deriving Repr

/-- `json.Marshal` of a `ws.TargetedEvent`.  `omitempty` never fires for a
`uuid.UUID` (16-byte array), so `target_user_id` is always emitted; a nil
`Event` marshals to `null`. -/
def TargetedEvent.toJson (t : TargetedEvent) : JVal :=
  .jobj [("target_user_id", .jnum t.targetUserID),
         ("event", match t.event with
                   | some e => e.toJson
                   | none => .jnull)]

/-- `json.Unmarshal` into a `ws.TargetedEvent` (as done by
`Hub.subscribeRedis`): unknown fields are ignored, absent fields keep
their zero values (`uuid.Nil`, nil pointer). -/
def unmarshalTargetedEvent : JVal → Option TargetedEvent
  | .jnull => some ⟨uuidNil, none⟩
  | .jobj fs =>
      let t? : Option UUID :=
        match lookupField fs "target_user_id" with
        | none => some uuidNil
        | some v => unmarshalUUID v
      let e? : Option (Option WSEvent) :=
        match lookupField fs "event" with
        | none => some none
        | some v => unmarshalWSEventPtr v
      match t?, e? with
      | some t, some e => some ⟨t, e⟩
      | _, _ => none
  | _ => none

/-- `json.Marshal` of a `model.OnlineEvent` (`user_id`, `is_online`). -/
def OnlineEvent.toJson (u : UUID) (online : Bool) : JVal :=
  .jobj [("user_id", .jnum u), ("is_online", .jbool online)]

/-- The presence `model.WSEvent` published by `addClient` / `removeClient`. -/
def presenceWSEvent (u : UUID) (online : Bool) : WSEvent :=
  ⟨if online then WSEventOnline else WSEventOffline, OnlineEvent.toJson u online⟩

/-! ### Timing constants of internal/ws/client.go (Go `time.Duration`
in nanoseconds). -/

/-- One `time.Second` in nanoseconds. -/
def second : Nat := 1000000000

/-- `writeWait = 10 * time.Second`. -/
def writeWait : Nat := 10 * second

/-- `pongWait = 60 * time.Second`. -/
def pongWait : Nat := 60 * second

/-- `pingPeriod = (pongWait * 9) / 10`. -/
def pingPeriod : Nat := (pongWait * 9) / 10

/-- `maxMessageSize = 4096`. -/
def maxMessageSize : Nat := 4096

/-- `NewClient` allocates `send` as `make(chan []byte, 256)`. -/
def sendChanCap : Nat := 256

/-- The read-deadline state of a connection (the part of `*websocket.Conn`
the pong handler touches). -/
structure ConnDeadline where
  readDeadline : Nat

/-- The pong handler installed by `ReadPump`:
`c.conn.SetReadDeadline(time.Now().Add(pongWait))`. -/
def pongHandler (now : Nat) (_c : ConnDeadline) : ConnDeadline :=
  ⟨now + pongWait⟩

/-- The initial read deadline set by `ReadPump` before its loop:
`c.conn.SetReadDeadline(time.Now().Add(pongWait))`. -/
def initialReadDeadline (now : Nat) : ConnDeadline :=
  ⟨now + pongWait⟩

/-! ### Connection registry (Hub) state

`Hub.clients` is `map[uuid.UUID]map[*Client]bool`, modelled as an
association list from user id to the list of that user's connection ids
(one id per `*Client` pointer; a Go map over pointers holds each at most
once, and iteration order is abstracted to list order).  Each client's
`send` channel lives in `chans`, a total map from connection id to channel
state, since every `*Client` owns exactly one channel from `NewClient` on. -/

/-- The state of one client's buffered `send` channel. -/
structure ChanState where
  buf : List JVal
  closed : Bool
deriving Repr

/-- `ws.Client` (the fields the registry uses: identity, owner, name). -/
structure Client where
  cid : Nat
  userID : UUID
  name : String
deriving Repr

/-- Go runtime panics the hub code can trigger on its channels. -/
inductive GoPanic where
  | closeOfClosedChannel : GoPanic
  | sendOnClosedChannel : GoPanic
deriving Repr

/-- Side effects the hub fires: the `onStatusChange` callback and
`publishToRedis` (the marshalled bus payload). -/
inductive Effect where
  | statusChange (u : UUID) (online : Bool) : Effect
  | publish (wire : JVal) : Effect
deriving Repr

/-- The hub's shared mutable state. -/
structure HubState where
  clients : List (UUID × List Nat)
  chans : Nat → ChanState

/-- Read of a Go map: first binding for the key. -/
def alookup (k : Nat) : List (Nat × α) → Option α
  | [] => none
  | (k', v) :: rest => if k' = k then some v else alookup k rest

/-- Write of a Go map: replace the binding if present, append otherwise. -/
def aupdate (k : Nat) (v : α) : List (Nat × α) → List (Nat × α)
  | [] => [(k, v)]
  | (k', v') :: rest =>
      if k' = k then (k, v) :: rest else (k', v') :: aupdate k v rest

/-- `delete` on a Go map. -/
def aerase (k : Nat) : List (Nat × α) → List (Nat × α)
  | [] => []
  | (k', v') :: rest =>
      if k' = k then rest else (k', v') :: aerase k rest

/-- Point update of the channel table. -/
def updChan (chans : Nat → ChanState) (cid : Nat) (v : ChanState) :
    Nat → ChanState :=
  fun j => if j = cid then v else chans j

/-- `close(client.send)`: closing an already-closed channel panics. -/
def closeChan (ch : ChanState) : Except GoPanic ChanState :=
  if ch.closed then .error .closeOfClosedChannel
  else .ok { ch with closed := true }

/-- `publishToRedis`: marshal and publish (marshalling of these payloads
cannot fail in the model; a Redis error is logged and absorbed, so the
effect records the attempt). -/
def publishToRedis (wire : JVal) : Effect := .publish wire

/-- `Hub.addClient`: on the user's first connection create the set, fire
the status callback and publish the `online` event as a bare
`model.WSEvent`; then put the client in the set. -/
def Hub.addClient (st : HubState) (c : Client) : HubState × List Effect :=
  match alookup c.userID st.clients with
  | none =>
      ({ st with clients := aupdate c.userID [c.cid] st.clients },
       [.statusChange c.userID true,
        publishToRedis (WSEvent.toJson (presenceWSEvent c.userID true))])
  | some set =>
      let set' := if c.cid ∈ set then set else set ++ [c.cid]
      ({ st with clients := aupdate c.userID set' st.clients }, [])

/-- `Hub.removeClient`: if the user has a set, delete the client from it
and `close(client.send)` (unconditionally — a Go panic if the delivery
path already closed it); if the set became empty, delete the user's entry,
fire the status callback and publish the `offline` event as a bare
`model.WSEvent`. -/
def Hub.removeClient (st : HubState) (c : Client) :
    Except GoPanic (HubState × List Effect) :=
  match alookup c.userID st.clients with
  | none => .ok (st, [])
  | some set =>
      let set' := set.erase c.cid
      match closeChan (st.chans c.cid) with
      | .error p => .error p
      | .ok ch' =>
          let st' : HubState :=
            { clients := aupdate c.userID set' st.clients,
              chans := updChan st.chans c.cid ch' }
          if set'.isEmpty then
            .ok ({ st' with clients := aerase c.userID st'.clients },
                 [.statusChange c.userID false,
                  publishToRedis
                    (WSEvent.toJson (presenceWSEvent c.userID false))])
          else
            .ok (st', [])

/-- The loop body of `sendToLocalUser` / `broadcastToLocal` over one set of
clients: `select { case client.send <- data: default: close(client.send);
delete(clients, client) }`.  Returns the updated channel table and the
clients still in the set.  A send on a closed channel is a Go panic even
under `select`/`default`; a full buffer takes the default branch, which
closes the channel and removes the client. -/
def deliverList (chans : Nat → ChanState) (data : JVal) :
    List Nat → Except GoPanic ((Nat → ChanState) × List Nat)
  | [] => .ok (chans, [])
  | cid :: rest =>
      let ch := chans cid
      if ch.closed then .error .sendOnClosedChannel
      else if ch.buf.length < sendChanCap then
        match deliverList (updChan chans cid { ch with buf := ch.buf ++ [data] })
            data rest with
        | .error p => .error p
        | .ok (chans', kept) => .ok (chans', cid :: kept)
      else
        match deliverList (updChan chans cid { ch with closed := true })
            data rest with
        | .error p => .error p
        | .ok (chans', kept) => .ok (chans', kept)

/-- `json.Marshal(event)` where `event : *model.WSEvent` may be nil
(a nil pointer marshals to `null`). -/
def marshalWSEventPtr : Option WSEvent → JVal
  | some e => e.toJson
  | none => .jnull

/-- `Hub.sendToLocalUser`: marshal the event once and enqueue it on every
connection the user has on this process; a full connection is closed and
removed from the set.  Fires no status callback and publishes nothing,
and never deletes the user's (possibly now empty) entry. -/
def Hub.sendToLocalUser (st : HubState) (u : UUID) (ev : Option WSEvent) :
    Except GoPanic (HubState × List Effect) :=
  match alookup u st.clients with
  | none => .ok (st, [])
  | some set =>
      match deliverList st.chans (marshalWSEventPtr ev) set with
      | .error p => .error p
      | .ok (chans', kept) =>
          .ok ({ clients := aupdate u kept st.clients, chans := chans' }, [])

/-- The inner fold of `broadcastToLocal` over the user entries. -/
def broadcastLoop (chans : Nat → ChanState) (data : JVal) :
    List (UUID × List Nat) →
      Except GoPanic ((Nat → ChanState) × List (UUID × List Nat))
  | [] => .ok (chans, [])
  | (u, set) :: rest =>
      match deliverList chans data set with
      | .error p => .error p
      | .ok (chans', kept) =>
          match broadcastLoop chans' data rest with
          | .error p => .error p
          | .ok (chans'', rest') => .ok (chans'', (u, kept) :: rest')

/-- `Hub.broadcastToLocal`: marshal the event once and enqueue it on every
connection of every user on this process; full connections are closed and
removed from their sets (the user entries themselves are never deleted).
Fires no status callback and publishes nothing. -/
def Hub.broadcastToLocal (st : HubState) (ev : WSEvent) :
    Except GoPanic (HubState × List Effect) :=
  match broadcastLoop st.chans (WSEvent.toJson ev) st.clients with
  | .error p => .error p
  | .ok (chans', clients') => .ok (⟨clients', chans'⟩, [])

/-- `Hub.SendToUser`: publish a `TargetedEvent` to Redis so every process
(this one included) delivers it. -/
def Hub.SendToUser (u : UUID) (ev : WSEvent) : Effect :=
  publishToRedis (TargetedEvent.toJson ⟨u, some ev⟩)

/-- `Hub.SendToUsers`: one `SendToUser` per user id, in order. -/
def Hub.SendToUsers (us : List UUID) (ev : WSEvent) : List Effect :=
  us.map (fun u => Hub.SendToUser u ev)

/-- `Hub.IsUserOnline`: whether the user has an entry in the table. -/
def Hub.IsUserOnline (st : HubState) (u : UUID) : Bool :=
  (alookup u st.clients).isSome

/-- The number of connections the table currently holds for a user. -/
def Hub.connectionCount (st : HubState) (u : UUID) : Nat :=
  ((alookup u st.clients).getD []).length

/-- One iteration of `Hub.subscribeRedis` on a received bus payload:
unmarshal a `TargetedEvent` (errors are logged and skipped); a non-nil
target goes to `sendToLocalUser`, otherwise a non-nil event is broadcast,
otherwise nothing happens. -/
def Hub.subscribeStep (st : HubState) (wire : JVal) :
    Except GoPanic (HubState × List Effect) :=
  match unmarshalTargetedEvent wire with
  | none => .ok (st, [])
  | some t =>
      if t.targetUserID ≠ uuidNil then
        Hub.sendToLocalUser st t.targetUserID t.event
      else
        match t.event with
        | some e => Hub.broadcastToLocal st e
        | none => .ok (st, [])

/-! ### Event dispatcher (internal/handler/ws_handler.go) -/

/-- `model.MessageTypeText`. -/
def MessageTypeText : String := "text"

/-- The fields of `model.SendMessageRequest` the WS dispatcher fills. -/
structure SendMessageRequest where
  content : String
  type : String
deriving Repr

/-- The anonymous payload struct of `handleNewMessage`:
`{conversation_id uuid.UUID; content string; type string}`, with Go
unmarshal semantics (absent or `null` fields keep zero values, wrong
types are errors). -/
structure NewMessagePayload where
  conversationID : UUID
  content : String
  type : String
deriving Repr

/-- Unmarshal of a `string` struct field (`null`/absent ⇒ `""`). -/
def unmarshalStringField (fs : List (String × JVal)) (key : String) :
    Option String :=
  match lookupField fs key with
  | none => some ""
  | some .jnull => some ""
  | some (.jstr s) => some s
  | some _ => none

/-- Unmarshal of the `handleNewMessage` payload struct. -/
def unmarshalNewMessagePayload : JVal → Option NewMessagePayload
  | .jnull => some ⟨uuidNil, "", ""⟩
  | .jobj fs =>
      let c? : Option UUID :=
        match lookupField fs "conversation_id" with
        | none => some uuidNil
        | some v => unmarshalUUID v
      match c?, unmarshalStringField fs "content",
          unmarshalStringField fs "type" with
      | some c, some s, some t => some ⟨c, s, t⟩
      | _, _, _ => none
  | _ => none

/-- `WSHandler.handleNewMessage`.  The chat service (`SendMessage`, i.e.
message persistence, and `GetConversationMemberIDs`, the membership
lookup) is an external collaborator and enters as function parameters.
The persisted `*model.Message` is opaque to the hub, modelled by its
marshalled JSON.  On parse, persistence or lookup failure the handler
logs and returns without publishing; otherwise it publishes the persisted
message to every id in the member list via `SendToUsers`. -/
def handleNewMessage (clientUserID : UUID) (payload : JVal)
    (sendMessage : UUID → UUID → SendMessageRequest → Except String JVal)
    (getConversationMemberIDs : UUID → Except String (List UUID)) :
    List Effect :=
  match unmarshalNewMessagePayload payload with
  | none => []
  | some p =>
      let msgType := if p.type = "" then MessageTypeText else p.type
      match sendMessage clientUserID p.conversationID ⟨p.content, msgType⟩ with
      | .error _ => []
      | .ok msg =>
          match getConversationMemberIDs p.conversationID with
          | .error _ => []
          | .ok memberIDs =>
              Hub.SendToUsers memberIDs ⟨WSEventNewMessage, msg⟩

/-- The anonymous payload struct of `handleCallSignaling`:
`{To uuid.UUID}` with json tag `to`; returns the decoded target. -/
def unmarshalCallPayloadTo : JVal → Option UUID
  | .jnull => some uuidNil
  | .jobj fs =>
      match lookupField fs "to" with
      | none => some uuidNil
      | some v => unmarshalUUID v
  | _ => none

/-- `WSHandler.handleCallSignaling`: parse `payload.to` (parse failure is
logged and dropped) and forward the event as-is to that target via
`SendToUser`. -/
def handleCallSignaling (ev : WSEvent) : List Effect :=
  match unmarshalCallPayloadTo ev.payload with
  | none => []
  | some target => [Hub.SendToUser target ev]

/-! ### Connection pump, inbound direction (Client.ReadPump) -/

/-- One inbound wire frame: either bytes that are not valid JSON, or a
JSON value. -/
inductive Frame where
  | malformed : Frame
  | data (j : JVal) : Frame
deriving Repr

/-- `json.Unmarshal(message, &event)` on one inbound frame. -/
def parseFrame : Frame → Option WSEvent
  | .malformed => none
  | .data j => unmarshalWSEvent j

/-- The decode-and-dispatch loop of `ReadPump` over the frames read before
the first read error / peer close: a frame that fails to parse is logged
and skipped (the loop — hence the connection — continues); every
well-formed envelope is handed to the dispatcher callback.  Returns the
envelopes handed over, in order. -/
def processFrames : List Frame → List WSEvent
  | [] => []
  | f :: rest =>
      match parseFrame f with
      | none => processFrames rest
      | some e => e :: processFrames rest

/-! ### Connection pump, outbound direction (Client.WritePump)

The pump is driven by an interleaving trace: the hub side enqueues on /
closes the `send` channel, the ticker fires, and the pump wakes to run one
iteration of the `select` loop.  `sent` is a ghost field recording every
message accepted into the queue, oldest first. -/

/-- One transmission written to the wire by `WritePump`. -/
inductive WireFrame where
  | msg (parts : List String) : WireFrame
  | ping : WireFrame
  | closeMsg : WireFrame
deriving Repr

/-- The bytes of a coalesced text transmission: the queued messages joined
by the `"\n"` delimiter, in queue order. -/
def WireFrame.bytes : WireFrame → String
  | .msg parts => String.intercalate "\n" parts
  | .ping => ""
  | .closeMsg => ""

structure PumpState where
  queue : List String
  closed : Bool
  wire : List WireFrame
  done : Bool
  sent : List String
deriving Repr

inductive PumpOp where
  | enqueue (m : String) : PumpOp
  | closeSend : PumpOp
  | drain : PumpOp
  | tick : PumpOp
deriving Repr

/-- One scheduler step.  `enqueue`/`closeSend` are the hub side (the hub
never sends after it closes the channel); `drain` is one iteration of the
`select`'s message case: receive one message, then `n := len(c.send)` and
append the n currently queued messages to the same transmission — i.e.
the whole queue goes out as one `WireFrame.msg`, in order; receiving on
the closed, drained channel yields `ok == false`, writing a close message
and returning.  `tick` is the ping case. -/
def pumpStep (st : PumpState) : PumpOp → PumpState
  | .enqueue m =>
      if st.closed ∨ st.done then st
      else { st with queue := st.queue ++ [m], sent := st.sent ++ [m] }
  | .closeSend => { st with closed := true }
  | .drain =>
      if st.done then st
      else
        match st.queue with
        | [] =>
            if st.closed then
              { st with wire := st.wire ++ [.closeMsg], done := true }
            else st
        | m :: rest =>
            { st with queue := [], wire := st.wire ++ [.msg (m :: rest)] }
  | .tick => if st.done then st else { st with wire := st.wire ++ [.ping] }

def initPump : PumpState := ⟨[], false, [], false, []⟩

def runPump (ops : List PumpOp) (st : PumpState) : PumpState :=
  ops.foldl pumpStep st

/-- The application messages carried by a sequence of wire frames, in
transmission order (pings and the close message carry none). -/
def wireMessages : List WireFrame → List String
  | [] => []
  | .msg parts :: rest => parts ++ wireMessages rest
  | .ping :: rest => wireMessages rest
  | .closeMsg :: rest => wireMessages rest

/-! ### Observers used to state concrete-input theorems -/

/-- The hub state of a non-panicking step. -/
def stepOk (r : Except GoPanic (HubState × List Effect)) : Option HubState :=
  match r with
  | .ok (s, _) => some s
  | .error _ => none

/-- The effects fired by a non-panicking step. -/
def stepEffects (r : Except GoPanic (HubState × List Effect)) :
    Option (List Effect) :=
  match r with
  | .ok (_, effs) => some effs
  | .error _ => none

/-! ### Concrete states and inputs used by the concrete-input theorems -/

/-- An arbitrary event to deliver. -/
def evTyping : WSEvent := ⟨WSEventTyping, .jnull⟩

/-- A `send` channel already holding `sendChanCap` (= 256) undelivered
events, still open. -/
def fullChan : ChanState := ⟨List.replicate sendChanCap .jnull, false⟩

/-- Hub state: user 1 online with exactly one connection (id 1) whose
outbound queue is full. -/
def stFull : HubState := ⟨[(1, [1])], fun _ => fullChan⟩

/-- Hub state: user 1 online with exactly one connection (id 1) whose
outbound queue is empty and open. -/
def stSender : HubState := ⟨[(1, [1])], fun _ => ⟨[], false⟩⟩

/-- Hub state: users 1 and 2, one open empty connection each. -/
def stTwo : HubState := ⟨[(1, [1]), (2, [2])], fun _ => ⟨[], false⟩⟩

/-- A `new_message` payload as a client sends it. -/
def payloadC1 : JVal :=
  .jobj [("conversation_id", .jnum 7), ("content", .jstr "hi"),
         ("type", .jstr "text")]

/-- The persisted, fully-populated message the chat service returns. -/
def msgPersisted : JVal := .jstr "persisted-message"

/-- A chat service whose persistence succeeds. -/
def saveOkC1 : UUID → UUID → SendMessageRequest → Except String JVal :=
  fun _ _ _ => .ok msgPersisted

/-- A membership lookup: conversation members are users 1 and 2. -/
def membersC1 : UUID → Except String (List UUID) := fun _ => .ok [1, 2]

/-- The outbound `new_message` event built from the persisted message. -/
def newMsgEventC1 : WSEvent := ⟨WSEventNewMessage, msgPersisted⟩

/-- A `call_offer` envelope whose payload lacks the `to` field. -/
def offerNoTarget : WSEvent := ⟨WSEventCallOffer, .jobj [("sdp", .jstr "x")]⟩

end GotalkWS

namespace GotalkWS

/-- C9: the heartbeat probe period is exactly 9/10 of the read-deadline
window (`pingPeriod * 10 = pongWait * 9`, the division being exact), hence
strictly shorter than the window, and a received pong resets the read
deadline to a full `pongWait` window from now. -/
theorem c9_ping_period_and_pong_deadline :
    pingPeriod * 10 = pongWait * 9 ∧ pingPeriod < pongWait ∧
      ∀ (now : Nat) (c : ConnDeadline),
        (pongHandler now c).readDeadline = now + pongWait := by
  refine ⟨by decide, by decide, fun now c => rfl⟩

/-- C2 (refuting the claim, exhibiting the code bug): starting from a hub
state where user 1's only connection has a full outbound queue, a delivery
to user 1 takes the queue-full path (closing the connection's `send`
channel and removing it from the set — this call itself succeeds), and the
subsequent `removeClient` for that same connection — the connection's own
`Disconnect`, reached through its unregister path — executes
`close(client.send)` on the already-closed channel: a Go runtime panic in
the Hub's `Run` goroutine, i.e. the Registry's serialized control path
halts, contrary to the claim that no such sequence is fatal to the
Registry. -/
theorem c2_queue_full_removal_then_disconnect_panics :
    (stepOk (Hub.sendToLocalUser stFull 1 (some evTyping))).map
        (fun s => Hub.removeClient s ⟨1, 1, "alice"⟩)
      = some (.error .closeOfClosedChannel) := rfl

/-- C3 (refuting the claim, exhibiting the code bug): after the delivery
call whose queue-full path removed user 1's only connection,
`IsUserOnline 1` still returns `true` while the connection count for user
1 is `0` — the delivery path deletes the client from the user's set but
never deletes the user's now-empty entry from the table, so the claimed
equivalence `IsOnline(u) ↔ count(u) > 0` fails at this observable point. -/
theorem c3_is_online_true_with_zero_connections :
    (stepOk (Hub.sendToLocalUser stFull 1 (some evTyping))).map
        (fun s => (Hub.IsUserOnline s 1, Hub.connectionCount s 1))
      = some (true, 0) := rfl

/-- C5 (refuting the claim, exhibiting the code bug): the delivery call
whose queue-full path removes user 1's last connection empties the user's
connection set (count drops to 0) yet fires no presence side effect at
all — neither the status callback nor an `offline` publication — contrary
to the claim that every removal that empties the set fires `offline`
exactly once. -/
theorem c5_emptying_removal_fires_no_offline :
    stepEffects (Hub.sendToLocalUser stFull 1 (some evTyping)) = some [] ∧
      (stepOk (Hub.sendToLocalUser stFull 1 (some evTyping))).map
          (fun s => Hub.connectionCount s 1)
        = some 0 := ⟨rfl, rfl⟩

/-- C4 (refuting the claim, exhibiting the code bug): the `online` /
`offline` presence events are published by `addClient`/`removeClient` as a
bare `model.WSEvent` (`{"type", "payload"}`), but `subscribeRedis`
unmarshals every bus payload as a `TargetedEvent` (`{"target_user_id",
"event"}`), obtaining `TargetUserID = uuid.Nil` and `Event = nil`; neither
branch fires, so — on every hub state — the subscriber drops the presence
event without delivering it to any local connection, contrary to the
claim that such no-target events are broadcast to all local
connections. -/
theorem c4_presence_events_dropped_by_subscriber :
    ∀ (st : HubState) (u : UUID) (online : Bool),
      Hub.subscribeStep st (WSEvent.toJson (presenceWSEvent u online))
        = .ok (st, []) :=
  fun _ _ _ => rfl

/-- The `ReadPump` decode-and-dispatch loop hands over exactly the frames
that parse, in frame order. -/
theorem processFrames_eq_filterMap (fs : List Frame) :
    processFrames fs = fs.filterMap parseFrame := by
  induction fs with
  | nil => rfl
  | cons f rest ih =>
      cases h : parseFrame f <;>
        simp [processFrames, List.filterMap_cons, h, ih]

/-- C8: a frame that fails to decode into a `{type, payload}` envelope is
skipped — the loop continues, so all frames before and after it are still
processed and the connection stays open — and every well-formed envelope
is handed to the dispatcher (the dispatched list is exactly the parses of
the frames, in order). -/
theorem c8_malformed_frames_skipped :
    (∀ fs : List Frame, processFrames fs = fs.filterMap parseFrame) ∧
      ∀ (fs1 fs2 : List Frame) (bad : Frame), parseFrame bad = none →
        processFrames (fs1 ++ bad :: fs2)
          = processFrames fs1 ++ processFrames fs2 := by
  refine ⟨processFrames_eq_filterMap, fun fs1 fs2 bad hbad => ?_⟩
  simp [processFrames_eq_filterMap, List.filterMap_append,
    List.filterMap_cons, hbad]

/-- C8 witness: a malformed frame between two well-formed ones is skipped
while both neighbours are still dispatched. -/
theorem c8_malformed_frames_skipped_witness :
    processFrames
        [Frame.data (.jobj [("type", .jstr "typing"), ("payload", .jnull)])]
        ++ processFrames [Frame.data .jnull]
      = processFrames
          ([Frame.data (.jobj [("type", .jstr "typing"), ("payload", .jnull)])]
            ++ Frame.malformed :: [Frame.data .jnull]) :=
  (c8_malformed_frames_skipped.2
    [Frame.data (.jobj [("type", .jstr "typing"), ("payload", .jnull)])]
    [Frame.data .jnull] Frame.malformed rfl).symm

theorem wireMessages_append (a b : List WireFrame) :
    wireMessages (a ++ b) = wireMessages a ++ wireMessages b := by
  induction a with
  | nil => rfl
  | cons f rest ih => cases f <;> simp [wireMessages, ih]

/-- The write-pump ordering invariant: the messages already on the wire
followed by the messages still queued are exactly the accepted messages,
oldest first. -/
def pumpInv (st : PumpState) : Prop :=
  wireMessages st.wire ++ st.queue = st.sent

theorem pumpStep_inv (st : PumpState) (op : PumpOp) (h : pumpInv st) :
    pumpInv (pumpStep st op) := by
  unfold pumpInv at h ⊢
  cases op with
  | enqueue m =>
      by_cases hc : (st.closed : Prop) ∨ (st.done : Prop)
      · simp [pumpStep, hc, h]
      · simp only [pumpStep, hc, if_false]
        rw [← List.append_assoc, h]
  | closeSend => simpa [pumpStep] using h
  | drain =>
      cases hd : st.done with
      | true => simpa [pumpStep, hd] using h
      | false =>
          cases hq : st.queue with
          | nil =>
              rw [hq, List.append_nil] at h
              cases hcl : st.closed with
              | false => simpa [pumpStep, hd, hcl, hq] using h
              | true =>
                  simp [pumpStep, hd, hcl, hq, wireMessages_append,
                    wireMessages, h]
          | cons m rest =>
              rw [hq] at h
              simp [pumpStep, hd, hq, wireMessages_append, wireMessages, h]
  | tick =>
      cases hd : st.done with
      | true => simpa [pumpStep, hd] using h
      | false =>
          simp [pumpStep, hd, wireMessages_append, wireMessages, h]

theorem runPump_inv (ops : List PumpOp) (st : PumpState) (h : pumpInv st) :
    pumpInv (runPump ops st) := by
  induction ops generalizing st with
  | nil => exact h
  | cons op rest ih =>
      exact ih (pumpStep st op) (pumpStep_inv st op h)

/-- C7: for every scheduling of hub enqueues, ticker ticks and pump
iterations, the messages written to the wire followed by the messages
still queued equal the accepted messages in enqueue order (so the wire
never reorders a connection's events); moreover one pump iteration on a
non-empty queue coalesces the entire current queue into a single
transmission whose bytes are the queued messages joined by the `"\n"`
delimiter, in queue order. -/
theorem c7_wire_order_preserved :
    (∀ ops : List PumpOp,
       wireMessages (runPump ops initPump).wire ++ (runPump ops initPump).queue
         = (runPump ops initPump).sent) ∧
      ∀ (st : PumpState) (m : String) (rest : List String),
        st.done = false → st.queue = m :: rest →
          (pumpStep st .drain).wire = st.wire ++ [.msg (m :: rest)] ∧
            WireFrame.bytes (.msg (m :: rest))
              = String.intercalate "\n" (m :: rest) := by
  constructor
  · intro ops
    exact runPump_inv ops initPump rfl
  · intro st m rest hd hq
    exact ⟨by simp [pumpStep, hd, hq], rfl⟩

/-- C7 witness: enqueuing `"a"` then `"b"` and draining writes them in
order; a drain on the queue `["a", "b"]` emits one transmission
`"a\nb"`. -/
theorem c7_wire_order_preserved_witness :
    (wireMessages (runPump [PumpOp.enqueue "a", PumpOp.enqueue "b",
          PumpOp.drain] initPump).wire
        ++ (runPump [PumpOp.enqueue "a", PumpOp.enqueue "b",
          PumpOp.drain] initPump).queue
      = (runPump [PumpOp.enqueue "a", PumpOp.enqueue "b",
          PumpOp.drain] initPump).sent) ∧
      (pumpStep ⟨["a", "b"], false, [], false, ["a", "b"]⟩ .drain).wire
          = [] ++ [.msg ("a" :: ["b"])] ∧
        WireFrame.bytes (.msg ("a" :: ["b"]))
          = String.intercalate "\n" ("a" :: ["b"]) :=
  ⟨c7_wire_order_preserved.1 [PumpOp.enqueue "a", PumpOp.enqueue "b",
      PumpOp.drain],
   c7_wire_order_preserved.2 ⟨["a", "b"], false, [], false, ["a", "b"]⟩
      "a" ["b"] rfl rfl⟩

theorem alookup_aupdate_self (k : Nat) (v : α) (l : List (Nat × α)) :
    alookup k (aupdate k v l) = some v := by
  induction l with
  | nil => simp [aupdate, alookup]
  | cons p rest ih =>
      by_cases hk : p.1 = k
      · simp [aupdate, alookup, hk]
      · simpa [aupdate, alookup, hk] using ih

/-- Behaviour of the delivery loop over one user's connection set, when
every connection in the set is open (the reachable-state invariant: a
closed connection is removed from the set in the same critical section
that closes it) and the set holds no duplicates (it models a Go map's key
set): the loop never panics, leaves foreign channels untouched, enqueues
the data on every connection with room and keeps it in the set, and
closes and removes every connection whose buffer is full. -/
theorem deliverList_spec (data : JVal) :
    ∀ (set : List Nat) (chans : Nat → ChanState),
      (∀ cid ∈ set, (chans cid).closed = false) → set.Nodup →
      ∃ chans' kept,
        deliverList chans data set = .ok (chans', kept) ∧
        (∀ j, j ∉ set → chans' j = chans j) ∧
        (∀ cid ∈ set,
          ((chans cid).buf.length < sendChanCap →
            chans' cid = ⟨(chans cid).buf ++ [data], false⟩ ∧ cid ∈ kept) ∧
          (¬ (chans cid).buf.length < sendChanCap →
            chans' cid = ⟨(chans cid).buf, true⟩ ∧ cid ∉ kept)) ∧
        kept ⊆ set := by
  intro set
  induction set with
  | nil =>
      intro chans _ _
      exact ⟨chans, [], rfl, fun _ _ => rfl,
        fun c hc => absurd hc (List.not_mem_nil c), by simp⟩
  | cons cid rest ih =>
      intro chans hopen hnd
      have hcid : (chans cid).closed = false := hopen cid (by simp)
      obtain ⟨hcidrest, hndrest⟩ := List.nodup_cons.mp hnd
      by_cases hroom : (chans cid).buf.length < sendChanCap
      · -- room on `cid`: enqueue and continue with the updated table
        obtain ⟨chans', kept, hrun, hout, hin, hsub⟩ :=
          ih (updChan chans cid ⟨(chans cid).buf ++ [data], false⟩)
            (fun c hc => by
              have hne : c ≠ cid := fun he => hcidrest (he ▸ hc)
              simpa [updChan, hne] using hopen c (List.mem_cons_of_mem _ hc))
            hndrest
        refine ⟨chans', cid :: kept, ?_, ?_, ?_, ?_⟩
        · simp only [deliverList, hcid, Bool.false_eq_true, if_false, hroom,
            if_true]
          rw [hrun]
        · intro j hj
          have hne : j ≠ cid := fun he => hj (he ▸ List.mem_cons_self cid rest)
          have hjrest : j ∉ rest := fun hr => hj (List.mem_cons_of_mem _ hr)
          rw [hout j hjrest]
          simp [updChan, hne]
        · intro c hc
          rcases List.mem_cons.mp hc with hceq | hcrest
          · subst hceq
            constructor
            · intro _
              refine ⟨?_, List.mem_cons_self _ _⟩
              rw [hout c hcidrest]
              simp [updChan]
            · intro hfull; exact absurd hroom hfull
          · have hne : c ≠ cid := fun he => hcidrest (he ▸ hcrest)
            have hbase : updChan chans cid ⟨(chans cid).buf ++ [data], false⟩ c
                = chans c := by simp [updChan, hne]
            obtain ⟨h1, h2⟩ := hin c hcrest
            rw [hbase] at h1 h2
            exact ⟨fun hr => ⟨(h1 hr).1, List.mem_cons_of_mem _ (h1 hr).2⟩,
              fun hf => ⟨(h2 hf).1,
                fun hm => (h2 hf).2 (by
                  rcases List.mem_cons.mp hm with he | hk
                  · exact absurd he hne
                  · exact hk)⟩⟩
        · intro x hx
          rcases List.mem_cons.mp hx with he | hk
          · exact he ▸ List.mem_cons_self cid rest
          · exact List.mem_cons_of_mem _ (hsub hk)
      · -- full buffer on `cid`: close it, drop it from the set, continue
        obtain ⟨chans', kept, hrun, hout, hin, hsub⟩ :=
          ih (updChan chans cid ⟨(chans cid).buf, true⟩)
            (fun c hc => by
              have hne : c ≠ cid := fun he => hcidrest (he ▸ hc)
              simpa [updChan, hne] using hopen c (List.mem_cons_of_mem _ hc))
            hndrest
        refine ⟨chans', kept, ?_, ?_, ?_, fun x hx =>
          List.mem_cons_of_mem _ (hsub hx)⟩
        · simp only [deliverList, hcid, Bool.false_eq_true, if_false, hroom,
            if_false]
          rw [hrun]
        · intro j hj
          have hne : j ≠ cid := fun he => hj (he ▸ List.mem_cons_self cid rest)
          have hjrest : j ∉ rest := fun hr => hj (List.mem_cons_of_mem _ hr)
          rw [hout j hjrest]
          simp [updChan, hne]
        · intro c hc
          rcases List.mem_cons.mp hc with hceq | hcrest
          · subst hceq
            refine ⟨fun hr => absurd hr hroom, fun _ => ⟨?_, ?_⟩⟩
            · rw [hout c hcidrest]
              simp [updChan]
            · intro hm; exact hcidrest (hsub hm)
          · have hne : c ≠ cid := fun he => hcidrest (he ▸ hcrest)
            have hbase : updChan chans cid ⟨(chans cid).buf, true⟩ c
                = chans c := by simp [updChan, hne]
            obtain ⟨h1, h2⟩ := hin c hcrest
            rw [hbase] at h1 h2
            exact ⟨h1, h2⟩

/-- C6: delivering to a user one of whose connections already holds
`sendChanCap` (= 256, the capacity `NewClient` allocates) undelivered
events disconnects that connection rather than blocking or silently
dropping while it stays open: the delivery call returns (it is a total
function of the state), the connection's outbound queue is closed
(terminating the write pump) and the connection is removed from the
user's entry in the registry table.  The hypotheses are the reachable-set
invariants: the set's connections are open and the set is duplicate-free. -/
theorem c6_full_queue_disconnects (st : HubState) (u : UUID)
    (ev : Option WSEvent) (set : List Nat) (c : Nat)
    (hs : alookup u st.clients = some set) (hnd : set.Nodup)
    (hopen : ∀ cid ∈ set, (st.chans cid).closed = false)
    (hc : c ∈ set) (hfull : (st.chans c).buf.length = sendChanCap) :
    ∃ st', Hub.sendToLocalUser st u ev = .ok (st', []) ∧
      (st'.chans c).closed = true ∧
      c ∉ (alookup u st'.clients).getD [] := by
  obtain ⟨chans', kept, hrun, _, hin, _⟩ :=
    deliverList_spec (marshalWSEventPtr ev) set st.chans hopen hnd
  have hnr : ¬ (st.chans c).buf.length < sendChanCap := by omega
  obtain ⟨hch, hck⟩ := (hin c hc).2 hnr
  refine ⟨⟨aupdate u kept st.clients, chans'⟩, ?_, ?_, ?_⟩
  · simp only [Hub.sendToLocalUser, hs, hrun]
  · simp [hch]
  · simpa [alookup_aupdate_self] using hck

/-- C6 witness: in the concrete state where user 1's only connection
(id 1) holds exactly 256 undelivered events, a delivery closes that
connection's queue and removes it from the table. -/
theorem c6_full_queue_disconnects_witness :
    ∃ st', Hub.sendToLocalUser stFull 1 (some evTyping) = .ok (st', []) ∧
      (st'.chans 1).closed = true ∧
      1 ∉ (alookup 1 st'.clients).getD [] :=
  c6_full_queue_disconnects stFull 1 (some evTyping) [1] 1 rfl
    (by simp) (fun cid _ => rfl) (by simp)
    (by simp [stFull, fullChan, sendChanCap])

/-- Behaviour of the broadcast loop over the whole table, when every
connection in the table is open and has room and the table's connection
ids are globally duplicate-free (each `*Client` sits in exactly one
user's set): the loop never panics, leaves foreign channels untouched and
enqueues the data on every connection of every user. -/
theorem broadcastLoop_spec (data : JVal) :
    ∀ (entries : List (UUID × List Nat)) (chans : Nat → ChanState),
      ((entries.map Prod.snd).flatten.Nodup) →
      (∀ cid ∈ (entries.map Prod.snd).flatten,
         (chans cid).closed = false ∧ (chans cid).buf.length < sendChanCap) →
      ∃ chans' entries',
        broadcastLoop chans data entries = .ok (chans', entries') ∧
        (∀ j, j ∉ (entries.map Prod.snd).flatten → chans' j = chans j) ∧
        ∀ p ∈ entries, ∀ cid ∈ p.2,
          chans' cid = ⟨(chans cid).buf ++ [data], false⟩ := by
  intro entries
  induction entries with
  | nil =>
      intro chans _ _
      exact ⟨chans, [], rfl, fun _ _ => rfl,
        fun p hp => absurd hp (List.not_mem_nil p)⟩
  | cons e rest ih =>
      obtain ⟨u, set⟩ := e
      intro chans hnd h
      have hjoin : ((((u, set) :: rest).map Prod.snd).flatten)
          = set ++ (rest.map Prod.snd).flatten := by simp
      rw [hjoin] at hnd h
      obtain ⟨hnd1, hnd2, hdisj⟩ := List.nodup_append.mp hnd
      have hopen1 : ∀ cid ∈ set, (chans cid).closed = false :=
        fun cid hc => (h cid (List.mem_append_left _ hc)).1
      obtain ⟨chans₁, kept, hrun1, hout1, hin1, _⟩ :=
        deliverList_spec data set chans hopen1 hnd1
      have hfix : ∀ cid ∈ (rest.map Prod.snd).flatten, chans₁ cid = chans cid :=
        fun cid hc => hout1 cid (fun hs => hdisj hs hc)
      obtain ⟨chans', rest', hrun2, hout2, hin2⟩ :=
        ih chans₁ hnd2
          (fun cid hc => by
            rw [hfix cid hc]
            exact h cid (List.mem_append_right _ hc))
      refine ⟨chans', (u, kept) :: rest', ?_, ?_, ?_⟩
      · simp only [broadcastLoop, hrun1, hrun2]
      · intro j hj
        rw [hjoin] at hj
        have hj1 : j ∉ set := fun hs => hj (List.mem_append_left _ hs)
        have hj2 : j ∉ (rest.map Prod.snd).flatten :=
          fun hs => hj (List.mem_append_right _ hs)
        rw [hout2 j hj2, hout1 j hj1]
      · intro p hp cid hcid
        rcases List.mem_cons.mp hp with hpe | hpr
        · subst hpe
          have hroom := (h cid (List.mem_append_left _ hcid)).2
          have h1 := ((hin1 cid hcid).1 hroom).1
          have hnotjoin : cid ∉ (rest.map Prod.snd).flatten :=
            fun hs => hdisj hcid hs
          rw [hout2 cid hnotjoin, h1]
        · have hcj : cid ∈ (rest.map Prod.snd).flatten := by
            simp only [List.mem_flatten, List.mem_map]
            exact ⟨p.2, ⟨p, hpr, rfl⟩, hcid⟩
          rw [hin2 p hpr cid hcid, hfix cid hcj]

/-- C10: a call-signaling envelope whose payload decodes with the nil
target (the `to` field absent or the nil UUID) is not dropped: the
dispatcher publishes it as a `TargetedEvent` with `TargetUserID =
uuid.Nil`; the bus subscriber decodes that wire payload back and, the
target being nil and the event non-nil, takes the broadcast branch; and
the broadcast enqueues the event on every connection of every locally
connected user (here under the reachable-state hypotheses that all
connections are open with room and the table's ids are duplicate-free)
instead of reaching a single target. -/
theorem c10_nil_target_signaling_broadcast :
    (∀ ev : WSEvent, unmarshalCallPayloadTo ev.payload = some uuidNil →
       handleCallSignaling ev
         = [Effect.publish (TargetedEvent.toJson ⟨uuidNil, some ev⟩)]) ∧
      (∀ (st : HubState) (ev : WSEvent),
         Hub.subscribeStep st (TargetedEvent.toJson ⟨uuidNil, some ev⟩)
           = Hub.broadcastToLocal st ev) ∧
      ∀ (st : HubState) (ev : WSEvent),
        ((st.clients.map Prod.snd).flatten.Nodup) →
        (∀ cid ∈ (st.clients.map Prod.snd).flatten,
           (st.chans cid).closed = false ∧
             (st.chans cid).buf.length < sendChanCap) →
        ∃ st', Hub.broadcastToLocal st ev = .ok (st', []) ∧
          ∀ p ∈ st.clients, ∀ cid ∈ p.2,
            (st'.chans cid).buf
              = (st.chans cid).buf ++ [WSEvent.toJson ev] := by
  refine ⟨?_, fun st ev => rfl, ?_⟩
  · intro ev hto
    simp [handleCallSignaling, hto, Hub.SendToUser, publishToRedis]
  · intro st ev hnd h
    obtain ⟨chans', entries', hrun, _, hin⟩ :=
      broadcastLoop_spec (WSEvent.toJson ev) st.clients st.chans hnd h
    refine ⟨⟨entries', chans'⟩, ?_, ?_⟩
    · simp only [Hub.broadcastToLocal]
      rw [hrun]
    · intro p hp cid hcid
      simp [hin p hp cid hcid]

/-- C10 witness: a `call_offer` whose payload lacks `to` is published with
the nil target, the subscriber treats that wire message as a broadcast,
and in the two-user state both users' connections receive it. -/
theorem c10_nil_target_signaling_broadcast_witness :
    (handleCallSignaling offerNoTarget
        = [Effect.publish (TargetedEvent.toJson ⟨uuidNil, some offerNoTarget⟩)]) ∧
      (Hub.subscribeStep stTwo (TargetedEvent.toJson ⟨uuidNil, some offerNoTarget⟩)
          = Hub.broadcastToLocal stTwo offerNoTarget) ∧
      ∃ st', Hub.broadcastToLocal stTwo offerNoTarget = .ok (st', []) ∧
        ∀ p ∈ stTwo.clients, ∀ cid ∈ p.2,
          (st'.chans cid).buf
            = (stTwo.chans cid).buf ++ [WSEvent.toJson offerNoTarget] :=
  ⟨c10_nil_target_signaling_broadcast.1 offerNoTarget rfl,
   c10_nil_target_signaling_broadcast.2.1 stTwo offerNoTarget,
   c10_nil_target_signaling_broadcast.2.2 stTwo offerNoTarget (by decide)
     (fun cid _ => ⟨rfl, by show (0 : Nat) < sendChanCap; decide⟩)⟩

/-- C1 counterexample: with sender user 1, a well-formed `new_message`
payload, successful persistence and conversation members `[1, 2]`, the
dispatcher publishes a targeted `new_message` bus event *to the sender
(user 1) as well* as to user 2, and delivering the sender-targeted bus
message to a process where the sender has an open connection enqueues the
event on the sender's own connection — refuting the claim that the
sender's own connections do not receive the published event
(`handleNewMessage` calls `SendToUsers(memberIDs, ...)` without excluding
`client.UserID`). -/
theorem c1_sender_receives_new_message_counterexample :
    handleNewMessage 1 payloadC1 saveOkC1 membersC1
        = [Effect.publish (TargetedEvent.toJson ⟨1, some newMsgEventC1⟩),
           Effect.publish (TargetedEvent.toJson ⟨2, some newMsgEventC1⟩)] ∧
      (stepOk (Hub.subscribeStep stSender
            (TargetedEvent.toJson ⟨1, some newMsgEventC1⟩))).map
          (fun s => (s.chans 1).buf)
        = some [WSEvent.toJson newMsgEventC1] := ⟨rfl, rfl⟩

/-- C1 (amended): for every well-formed `new_message` envelope, the
dispatcher persists the message via the external message store first; on
persistence failure no event is published; and only if persistence (and
the membership lookup) succeeds does it publish the persisted,
fully-populated message as a targeted `new_message` bus event to every
member of the conversation *including the sender*, one publish per member
in membership order. -/
theorem c1_new_message_published_to_all_members :
    (∀ (uid : UUID) (pj : JVal)
       (f : UUID → UUID → SendMessageRequest → Except String JVal)
       (g : UUID → Except String (List UUID)) (p : NewMessagePayload)
       (e : String),
       unmarshalNewMessagePayload pj = some p →
       f uid p.conversationID
           ⟨p.content, if p.type = "" then MessageTypeText else p.type⟩
         = .error e →
       handleNewMessage uid pj f g = []) ∧
      ∀ (uid : UUID) (pj : JVal)
        (f : UUID → UUID → SendMessageRequest → Except String JVal)
        (g : UUID → Except String (List UUID)) (p : NewMessagePayload)
        (msg : JVal) (ms : List UUID),
        unmarshalNewMessagePayload pj = some p →
        f uid p.conversationID
            ⟨p.content, if p.type = "" then MessageTypeText else p.type⟩
          = .ok msg →
        g p.conversationID = .ok ms →
        handleNewMessage uid pj f g
          = ms.map (fun m => Effect.publish
              (TargetedEvent.toJson ⟨m, some ⟨WSEventNewMessage, msg⟩⟩)) := by
  constructor
  · intro uid pj f g p e hp hf
    simp [handleNewMessage, hp, hf]
  · intro uid pj f g p msg ms hp hf hg
    simp [handleNewMessage, hp, hf, hg, Hub.SendToUsers, Hub.SendToUser,
      publishToRedis]

/-- C1 witness: with the concrete payload, a succeeding store and members
`[1, 2]` the dispatcher publishes to both members; with a failing store it
publishes nothing. -/
theorem c1_new_message_published_to_all_members_witness :
    (handleNewMessage 1 payloadC1 saveOkC1 membersC1
        = [1, 2].map (fun m => Effect.publish
            (TargetedEvent.toJson ⟨m, some ⟨WSEventNewMessage, msgPersisted⟩⟩))) ∧
      handleNewMessage 1 payloadC1 (fun _ _ _ => .error "db down") membersC1
        = [] :=
  ⟨c1_new_message_published_to_all_members.2 1 payloadC1 saveOkC1 membersC1
      ⟨7, "hi", "text"⟩ msgPersisted [1, 2] rfl rfl rfl,
   c1_new_message_published_to_all_members.1 1 payloadC1
      (fun _ _ _ => .error "db down") membersC1 ⟨7, "hi", "text"⟩ "db down"
      rfl rfl⟩

end GotalkWS
